import Mathlib

/-!
Verification of the Media Extractor backend (src/server.ts) against its
natural-language specification. The TypeScript handlers are shallowly
embedded: JavaScript strings become String, absent JSON fields become
Option, JavaScript numbers become Nat, Int or Rat as the site requires, and
each stateful handler becomes an explicit step function on the state it
mutates (the shared task map entry, the response stream, the downloads
directory).
-/

/-- Decides whether `p` is an initial segment of `s`, character by
character: the embedding of the JavaScript startsWith test. -/
def charsHasPfx : List Char → List Char → Bool
  | [], _ => true
  | _ :: _, [] => false
  | c :: cs, d :: ds => c == d && charsHasPfx cs ds

/-- Decides whether `pat` occurs as a contiguous substring of the character
list: the embedding of the JavaScript String.prototype.includes test. -/
def charsContains (pat : List Char) : List Char → Bool
  | [] => charsHasPfx pat []
  | c :: cs => charsHasPfx pat (c :: cs) || charsContains pat cs

/-- JavaScript s.includes(pat) on Lean strings. -/
def strContains (s pat : String) : Bool := charsContains pat.data s.data

/-- JavaScript s.startsWith(pat). -/
def strStartsWith (s pat : String) : Bool := charsHasPfx pat.data s.data

/-- JavaScript s.endsWith(pat). -/
def strEndsWith (s pat : String) : Bool := charsHasPfx pat.data.reverse s.data.reverse

/-- JavaScript s.toLowerCase() on the ASCII text the server compares against
a lowercase signature. -/
def lowerStr (s : String) : String := String.mk (s.data.map Char.toLower)

/-- One raw format entry of the JSON document the extractor prints for an
/api/info request, as the success path of src/server.ts reads it. Every
field is an Option because the provider may omit it; none models the
absent (undefined) JSON field. -/
structure RawFormat where
  format_id : Option String
  ext : Option String
  resolution : Option String
  width : Option Nat
  height : Option Nat
  filesize : Option Nat
  filesize_approx : Option Nat
  vcodec : Option String
  acodec : Option String
  format_note : Option String
  fps : Option ℚ
deriving DecidableEq

/-- The mapped format entry the /api/info success path returns to the
client (spec section 3, FormatDescriptor). -/
structure FormatDescriptor where
  format_id : Option String
  ext : Option String
  resolution : String
  filesize : Nat
  vcodec : Option String
  acodec : Option String
  video_only : Bool
  audio_only : Bool
  combined : Bool
  format_note : String
  fps : Option ℚ
deriving DecidableEq

/-- JavaScript truthiness of an optional string field: undefined and the
empty string are falsy. -/
def truthyS : Option String → Bool
  | none => false
  | some s => s != ""

/-- JavaScript truthiness of an optional numeric field: undefined and 0 are
falsy. -/
def truthyN : Option Nat → Bool
  | none => false
  | some n => n != 0

/-- The per-entry mapping of the /api/info success path, src/server.ts
lines 240 to 257 (the structuredFormats callback). The codec ternary of the
source, vcodec !== "none" ? f.vcodec : "none", is embedded verbatim, as are
the resolution and filesize fallback chains and the category flags. -/
def structuredFormat (f : RawFormat) : FormatDescriptor :=
  let vcodec := if f.vcodec != some "none" then f.vcodec else some "none"
  let acodec := if f.acodec != some "none" then f.acodec else some "none"
  { format_id := f.format_id
    ext := f.ext
    resolution :=
      if truthyS f.resolution then f.resolution.getD ""
      else if truthyN f.width && truthyN f.height then
        toString (f.width.getD 0) ++ "x" ++ toString (f.height.getD 0)
      else "audio only"
    filesize :=
      if truthyN f.filesize then f.filesize.getD 0
      else if truthyN f.filesize_approx then f.filesize_approx.getD 0
      else 0
    vcodec := vcodec
    acodec := acodec
    video_only := vcodec != some "none" && acodec == some "none"
    audio_only := vcodec == some "none" && acodec != some "none"
    combined := vcodec != some "none" && acodec != some "none"
    format_note := if truthyS f.format_note then f.format_note.getD "" else ""
    fps := match f.fps with
      | some q => if q == 0 then none else some q
      | none => none }

/-- C1: on the /api/info success path the three category flags of a mapped
FormatDescriptor are mutually exclusive as derived from the codecs: a raw
entry whose vcodec is the string none and whose acodec differs from none
maps to audio_only and nothing else; symmetrically when acodec is none and
vcodec differs from none the descriptor is video_only alone; and when both
codecs differ from none it is combined alone. -/
theorem c1_category_flags (f : RawFormat) :
    (f.vcodec = some "none" → f.acodec ≠ some "none" →
      (structuredFormat f).audio_only = true ∧ (structuredFormat f).video_only = false ∧
        (structuredFormat f).combined = false) ∧
    (f.acodec = some "none" → f.vcodec ≠ some "none" →
      (structuredFormat f).video_only = true ∧ (structuredFormat f).audio_only = false ∧
        (structuredFormat f).combined = false) ∧
    (f.vcodec ≠ some "none" → f.acodec ≠ some "none" →
      (structuredFormat f).combined = true ∧ (structuredFormat f).video_only = false ∧
        (structuredFormat f).audio_only = false) := by
  refine ⟨fun h1 h2 => ?_, fun h1 h2 => ?_, fun h1 h2 => ?_⟩ <;>
    simp [structuredFormat, h1, h2]

/-- C2 (amended): the mapped vcodec and acodec fields equal the raw entry
fields unchanged: a present codec string (the literal none included) maps
to itself, and an absent field stays absent instead of becoming the string
none, because the codec ternary of the source is the identity map. -/
theorem c2_codec_passthrough (f : RawFormat) :
    (structuredFormat f).vcodec = f.vcodec ∧ (structuredFormat f).acodec = f.acodec := by
  by_cases hv : f.vcodec = some "none" <;> by_cases ha : f.acodec = some "none" <;>
    simp [structuredFormat, hv, ha]

/-- Concrete raw entry whose vcodec field is entirely absent (an audio
stream as the provider reports it). -/
def rawAbsentVcodec : RawFormat :=
  { format_id := some "251", ext := some "webm", resolution := none, width := none,
    height := none, filesize := none, filesize_approx := none, vcodec := none,
    acodec := some "opus", format_note := none, fps := none }

/-- C2 (counterexample): for a raw entry whose vcodec field is entirely
absent the mapped vcodec is still absent, not the literal string none,
refuting the claim that an absent codec maps to the string none. -/
theorem c2_absent_codec_cex :
    rawAbsentVcodec.vcodec = none ∧ (structuredFormat rawAbsentVcodec).vcodec ≠ some "none" := by
  exact ⟨rfl, by decide⟩

/-- The recognized-platform test of the /api/info close handler,
src/server.ts line 101: a substring match of six platform names against the
raw request URL. -/
def isKnownPlatform (url : String) : Bool :=
  strContains url "youtube.com" || strContains url "youtu.be" ||
    strContains url "instagram.com" || strContains url "tiktok.com" ||
    strContains url "twitter.com" || strContains url "x.com"

/-- The bot and auth failure-signature test of the /api/info close handler,
src/server.ts line 102, over the accumulated standard-error text. -/
def isBotError (stderr : String) : Bool :=
  strContains stderr "Sign in to confirm" || strContains stderr "HTTP Error 403" ||
    strContains stderr "bot" || strContains stderr "Login required" ||
    strContains (lowerStr stderr) "redirecting to login" ||
    strContains stderr "HTTP Error 401"

/-- The error-message classifier of the /api/info non-zero-exit path,
src/server.ts lines 216 to 223. -/
def classifyStderr (stderr : String) : String :=
  if strContains stderr "Unsupported URL" then
    "The provided URL is not supported by the extractor."
  else if strContains stderr "Video unavailable" then
    "The video is unavailable, private, or deleted."
  else if strContains stderr "Private video" then
    "This video is private and requires authentication."
  else "Failed to extract media info. Ensure the URL is valid and supported."

/-- What the /api/info close handler does when the extractor exits with a
non-zero code: either the synthetic-format fallback branch or a classified
400 error response. -/
inductive InfoFailResponse where
  | fallbackFormats
  | classified (msg : String)
deriving DecidableEq

/-- The decision of the /api/info close handler on a non-zero exit code,
src/server.ts lines 98 to 225: the fallback branch runs when the URL is a
recognized platform or the standard error carries a bot or auth signature,
and the classified 400 response otherwise. -/
def infoNonzeroExit (url stderr : String) : InfoFailResponse :=
  if isKnownPlatform url || isBotError stderr then .fallbackFormats
  else .classified (classifyStderr stderr)

/-- C3: on a non-zero extractor exit the /api/info fallback branch is taken
exactly when the accumulated standard error matches a bot or auth signature
or the raw URL contains one of the six platform substrings; in particular
standard error carrying HTTP Error 403 for a URL outside the
recognized-platform set still takes the fallback branch. -/
theorem c3_fallback_condition :
    (∀ url stderr, infoNonzeroExit url stderr = InfoFailResponse.fallbackFormats ↔
      (isBotError stderr = true ∨ isKnownPlatform url = true)) ∧
    infoNonzeroExit "https://example.org/clip"
      "ERROR: unable to download webpage: HTTP Error 403: Forbidden" =
        InfoFailResponse.fallbackFormats ∧
    isKnownPlatform "https://example.org/clip" = false := by
  refine ⟨fun url stderr => ?_, by decide, by decide⟩
  unfold infoNonzeroExit
  rcases hb : isBotError stderr <;> rcases hk : isKnownPlatform url <;> simp [hb, hk]

/-- One entry of the shared in-memory task map of src/server.ts line 49.
The progress field is an Option Rat: some q is the JavaScript number q and
none models NaN (which parseFloat can produce on a degenerate progress
token). -/
structure DownloadTask where
  progress : Option ℚ
  status : String
  error : Option String
  filename : Option String
deriving DecidableEq

/-- The initial task state registered by /api/download, src/server.ts
line 293. -/
def startingTask : DownloadTask := ⟨some 0, "Starting", none, none⟩

/-- Whitespace as the JavaScript regex class matches it on the ASCII range
of extractor output. -/
def isWsChar (c : Char) : Bool :=
  c == ' ' || c == '\t' || c == '\n' || c == '\r' || c == '\x0B' || c == '\x0C'

/-- A character of the regex class holding digits and the dot. -/
def isDigitDot (c : Char) : Bool := c.isDigit || c == '.'

/-- The literal head of the extractor progress-line pattern. -/
def dlPattern : List Char := "[download]".data

/-- Tries the progress-line regex of src/server.ts line 423 at the start of
the character list: the literal head, then one or more whitespace
characters, then the captured group of one or more digit-or-dot characters,
then a percent sign. The group is greedy, so the capture is the maximal
digit-or-dot run, and the run must be followed directly by the percent
sign. -/
def matchDownloadAt (s : List Char) : Option (List Char) :=
  if charsHasPfx dlPattern s then
    let rest := s.drop dlPattern.length
    if (rest.takeWhile isWsChar).isEmpty then none
    else
      let rest2 := rest.dropWhile isWsChar
      let tok := rest2.takeWhile isDigitDot
      if tok.isEmpty then none
      else
        match rest2.dropWhile isDigitDot with
        | '%' :: _ => some tok
        | _ => none
  else none

/-- Leftmost match of the progress-line regex: the capture of the first
position where the whole pattern matches. -/
def findTokenInChars : List Char → Option (List Char)
  | [] => none
  | c :: cs =>
    match matchDownloadAt (c :: cs) with
    | some tok => some tok
    | none => findTokenInChars cs

/-- The captured percentage token of a chunk of extractor standard output,
if the progress-line regex matches anywhere in it. -/
def findDownloadToken (s : String) : Option (List Char) := findTokenInChars s.data

/-- Numeric value of a decimal digit character. -/
def digitVal (c : Char) : ℕ := c.toNat - 48

/-- Value of a list of decimal digit characters read most significant
first. -/
def digitsVal (ds : List Char) : ℕ := ds.foldl (fun n c => n * 10 + digitVal c) 0

/-- JavaScript parseFloat on a token of digits and dots: leading digits,
then an optional dot and fractional digits, stopping at a second dot; none
models NaN, produced when no digit is read before the parse stops. -/
def jsParseFloat (cs : List Char) : Option ℚ :=
  match cs.dropWhile Char.isDigit with
  | '.' :: rest2 =>
    if (cs.takeWhile Char.isDigit).isEmpty && (rest2.takeWhile Char.isDigit).isEmpty then
      none
    else
      some ((digitsVal (cs.takeWhile Char.isDigit) : ℚ) +
        (digitsVal (rest2.takeWhile Char.isDigit) : ℚ) /
          (10 : ℚ) ^ (rest2.takeWhile Char.isDigit).length)
  | _ =>
    if (cs.takeWhile Char.isDigit).isEmpty then none
    else some ((digitsVal (cs.takeWhile Char.isDigit) : ℚ))

/-- The task value the bypass transfer loop writes after a chunk when the
expected total size is known, src/server.ts lines 363 to 365. -/
def chunkTask (received total : ℕ) : DownloadTask :=
  ⟨some (30 + ((received : ℚ) / (total : ℚ)) * 69), "Downloading", none, none⟩

/-- The handler of one chunk of extractor standard output in the
/api/download extractor branch, src/server.ts lines 421 to 430: a
progress-line match sets the parsed percentage and the Downloading status,
otherwise a Merger marker sets 100 and Merging, otherwise the task entry is
left as it is. -/
def extractorStdoutStep (output : String) (cur : DownloadTask) : DownloadTask :=
  match findDownloadToken output with
  | some tok => ⟨jsParseFloat tok, "Downloading", none, none⟩
  | none =>
    if strContains output "[Merger]" then ⟨some 100, "Merging", none, none⟩ else cur

/-- The close handler of the /api/download extractor branch, src/server.ts
lines 436 to 453: on exit code zero the downloads directory listing is
scanned for the first file whose name starts with the tracking identifier;
a hit completes the task with that filename, a miss and any non-zero code
record an error. The accumulated standard error is not an input: the
handler never attaches it. -/
def extractorCloseUpdate (code : ℤ) (files : List String) (id : String) : DownloadTask :=
  if code = 0 then
    match files.find? (fun f => strStartsWith f id) with
    | some f => ⟨some 100, "Completed", none, some f⟩
    | none => ⟨some 0, "Error", some "File not found after download.", none⟩
  else ⟨some 0, "Error", some "Download failed.", none⟩

/-- Every write to one task map entry that src/server.ts performs, with the
inputs each site depends on: the registration write (line 293), the three
fixed bypass-branch writes (lines 309, 345, 371), the per-chunk
bypass write (lines 363 to 365, performed only when the parsed
content-length is positive), the bypass catch write (line 381, message
defaulting when the thrown message is falsy), the spawn-failure writes
(lines 413 to 419), the standard-output handler and the close handler of
the extractor branch. -/
inductive TaskWrite where
  | register
  | bypassStart
  | bypassFetch
  | bypassChunk (received total : ℕ)
  | bypassDone (fname : String)
  | bypassFail (msg : Option String)
  | spawnFail (enoent : Bool)
  | stdoutData (output : String)
  | closeExit (code : ℤ) (files : List String) (id : String)

/-- The task value a write leaves in the map entry, given the value the
entry held before (only the standard-output handler can keep it). -/
def applyWrite (w : TaskWrite) (cur : DownloadTask) : DownloadTask :=
  match w with
  | .register => startingTask
  | .bypassStart => ⟨some 10, "Bypassing Bot Detection...", none, none⟩
  | .bypassFetch => ⟨some 30, "Downloading from Bypass Server...", none, none⟩
  | .bypassChunk received total => if 0 < total then chunkTask received total else cur
  | .bypassDone fname => ⟨some 100, "Completed", none, some fname⟩
  | .bypassFail msg =>
    ⟨some 0, "Error", some (msg.getD "Bypass server failed to process this video."), none⟩
  | .spawnFail enoent =>
    ⟨some 0, "Error",
      some (if enoent then "yt-dlp is not installed on the server."
        else "Failed to execute yt-dlp."), none⟩
  | .stdoutData output => extractorStdoutStep output cur
  | .closeExit code files id => extractorCloseUpdate code files id

/-- A percentage parsed from the digit-and-dot capture group is never
negative. -/
theorem jsParseFloat_nonneg (cs : List Char) (p : ℚ) (h : jsParseFloat cs = some p) :
    0 ≤ p := by
  unfold jsParseFloat at h
  split at h
  · split at h
    · exact absurd h (by simp)
    · obtain rfl := Option.some.inj h
      positivity
  · split at h
    · exact absurd h (by simp)
    · obtain rfl := Option.some.inj h
      positivity

/-- The claim C4 range predicate: the progress field is a number between 0
and 100. -/
def taskInRange (t : DownloadTask) : Prop :=
  ∃ p, t.progress = some p ∧ 0 ≤ p ∧ p ≤ 100

/-- The side conditions under which the amended claim C4 holds: a bypass
chunk write never carries more received bytes than the advertised total,
and a matched extractor progress token parses to a number of at most 100.
Every other write site is unconditional. -/
def writeWF : TaskWrite → Prop
  | .bypassChunk received total => 0 < total → received ≤ total
  | .stdoutData output => ∀ tok, findDownloadToken output = some tok →
      ∃ p, jsParseFloat tok = some p ∧ p ≤ 100
  | _ => True

/-- C4 (amended): every task-map write of src/server.ts leaves the progress
field a number in the band 0 to 100, provided the received byte count of a
bypass chunk write never exceeds the advertised total and every matched
extractor progress token parses to a number of at most 100; without those
side conditions the bypass chunk formula exceeds 100 (see the
counterexample). -/
theorem c4_progress_range (w : TaskWrite) (cur : DownloadTask)
    (hw : writeWF w) (hc : taskInRange cur) : taskInRange (applyWrite w cur) := by
  cases w with
  | register => exact ⟨0, rfl, le_refl 0, by norm_num⟩
  | bypassStart => exact ⟨10, rfl, by norm_num, by norm_num⟩
  | bypassFetch => exact ⟨30, rfl, by norm_num, by norm_num⟩
  | bypassChunk received total =>
    by_cases ht : 0 < total
    · have hrt : (received : ℚ) ≤ (total : ℚ) := Nat.cast_le.mpr (hw ht)
      have htq : (0 : ℚ) < (total : ℚ) := by exact_mod_cast ht
      have hdiv : (received : ℚ) / (total : ℚ) ≤ 1 := (div_le_one htq).mpr hrt
      have hdiv0 : 0 ≤ (received : ℚ) / (total : ℚ) := by positivity
      refine ⟨30 + ((received : ℚ) / (total : ℚ)) * 69, ?_, by linarith, by linarith⟩
      simp [applyWrite, chunkTask, ht]
    · simpa [applyWrite, ht] using hc
  | bypassDone fname => exact ⟨100, rfl, by norm_num, le_refl 100⟩
  | bypassFail msg => exact ⟨0, rfl, le_refl 0, by norm_num⟩
  | spawnFail enoent => exact ⟨0, rfl, le_refl 0, by norm_num⟩
  | stdoutData output =>
    simp only [applyWrite, extractorStdoutStep]
    cases hft : findDownloadToken output with
    | some tok =>
      obtain ⟨p, hp, hle⟩ := hw tok hft
      exact ⟨p, by simp [hp], jsParseFloat_nonneg tok p hp, hle⟩
    | none =>
      by_cases hm : strContains output "[Merger]"
      · exact ⟨100, by simp [hm], by norm_num, le_refl 100⟩
      · simpa [hm] using hc
  | closeExit code files id =>
    simp only [applyWrite, extractorCloseUpdate]
    by_cases hc0 : code = 0
    · cases hf : files.find? (fun f => strStartsWith f id) with
      | some f => exact ⟨100, by simp [hc0, hf], by norm_num, le_refl 100⟩
      | none => exact ⟨0, by simp [hc0, hf], le_refl 0, by norm_num⟩
    · exact ⟨0, by simp [hc0], le_refl 0, by norm_num⟩

/-- C4 (counterexample): the bypass chunk write performed after a chunk of
two bytes under an advertised content length of one byte leaves the
progress field at 168, outside the claimed 0 to 100 band. -/
theorem c4_range_cex :
    (applyWrite (TaskWrite.bypassChunk 2 1) startingTask).progress = some 168 ∧
      ¬ ((168 : ℚ) ≤ 100) := by
  constructor
  · simp only [applyWrite, chunkTask]
    norm_num
  · norm_num

/-- C4 (witness): the amended theorem applied at the chunk write of one
received byte out of two expected, from the registration state. -/
theorem c4_range_witness :
    taskInRange (applyWrite (TaskWrite.bypassChunk 1 2) startingTask) :=
  c4_progress_range (TaskWrite.bypassChunk 1 2) startingTask
    (by intro h; norm_num) ⟨0, rfl, le_refl 0, by norm_num⟩

/-- C5: in the bypass branch with a known positive total size the per-chunk
progress is exactly 30 plus the received fraction times 69, so it is 30 at
zero received bytes and 99 when the received bytes equal the total, and the
separate post-stream completion write sets progress exactly 100 with the
Completed status. -/
theorem c5_bypass_formula (received total : ℕ) (cur : DownloadTask) (fname : String)
    (ht : 0 < total) :
    (applyWrite (TaskWrite.bypassChunk received total) cur).progress =
      some (30 + ((received : ℚ) / (total : ℚ)) * 69) ∧
    (applyWrite (TaskWrite.bypassChunk 0 total) cur).progress = some 30 ∧
    (applyWrite (TaskWrite.bypassChunk total total) cur).progress = some 99 ∧
    applyWrite (TaskWrite.bypassDone fname) cur =
      ⟨some 100, "Completed", none, some fname⟩ := by
  have htq : (0 : ℚ) < (total : ℚ) := by exact_mod_cast ht
  refine ⟨by simp [applyWrite, chunkTask, ht], by simp [applyWrite, chunkTask, ht], ?_, rfl⟩
  simp [applyWrite, chunkTask, ht, div_self (ne_of_gt htq)]
  norm_num

/-- C5 (witness): the formula theorem applied at one received byte out of
two, from the registration state. -/
theorem c5_bypass_formula_witness :
    (applyWrite (TaskWrite.bypassChunk 1 2) startingTask).progress =
      some (30 + (((1 : ℕ) : ℚ) / ((2 : ℕ) : ℚ)) * 69) ∧
    (applyWrite (TaskWrite.bypassChunk 0 2) startingTask).progress = some 30 ∧
    (applyWrite (TaskWrite.bypassChunk 2 2) startingTask).progress = some 99 ∧
    applyWrite (TaskWrite.bypassDone "file.mp4") startingTask =
      ⟨some 100, "Completed", none, some "file.mp4"⟩ :=
  c5_bypass_formula 1 2 startingTask "file.mp4" (by norm_num)

/-- C8: when the extractor download subprocess exits with code zero the
close handler completes the task with the first downloads-directory file
whose name starts with the tracking identifier, records the
file-not-found error when no listed file starts with it, and records the
fixed Download failed message on every non-zero exit code; the handler
takes no standard-error input, so stderr is never attached to the terminal
state. -/
theorem c8_close_terminal (code : ℤ) (files : List String) (id : String) :
    (code = 0 → ∀ f, files.find? (fun x => strStartsWith x id) = some f →
      extractorCloseUpdate code files id = ⟨some 100, "Completed", none, some f⟩ ∧
        strStartsWith f id = true ∧ f ∈ files) ∧
    (code = 0 → (∀ f ∈ files, strStartsWith f id = false) →
      extractorCloseUpdate code files id =
        ⟨some 0, "Error", some "File not found after download.", none⟩) ∧
    (code ≠ 0 → extractorCloseUpdate code files id =
      ⟨some 0, "Error", some "Download failed.", none⟩) := by
  refine ⟨fun hc f hf => ?_, fun hc hnone => ?_, fun hc => ?_⟩
  · subst hc
    refine ⟨by simp [extractorCloseUpdate, hf], ?_, List.mem_of_find?_eq_some hf⟩
    have hp := List.find?_some hf
    simpa using hp
  · subst hc
    have hnf : files.find? (fun x => strStartsWith x id) = none := by
      rw [List.find?_eq_none]
      intro x hx
      simp [hnone x hx]
    simp [extractorCloseUpdate, hnf]
  · simp [extractorCloseUpdate, hc]

/-- JavaScript path.join of the downloads directory with a file name, as
the download handler uses it. -/
def pathJoin (a b : String) : String := a ++ "/" ++ b

/-- The extractor-branch output template of /api/download, src/server.ts
line 387: the downloads directory joined with the tracking identifier, an
underscore and the extension placeholder. -/
def downloadOutputTemplate (downloadsDir downloadId : String) : String :=
  pathJoin downloadsDir (downloadId ++ "_%(ext)s")

/-- The format selector passed to the extractor, src/server.ts lines 389
to 392: the raw format identifier, or the identifier joined with the
best-audio fallback selector when the optional merge flag is the value
true. -/
def formatSelector (format_id : String) (needs_merge : Option Bool) : String :=
  if needs_merge == some true then format_id ++ "+bestaudio/best" else format_id

/-- The argument list the /api/download extractor branch spawns the
extractor with, src/server.ts lines 394 to 409; the cookie pair is present
exactly when a cookie file is resolved. -/
def ytDlpDownloadArgs (downloadsDir downloadId format_id : String)
    (needs_merge : Option Bool) (cookieFile : Option String) (url : String) : List String :=
  ["-f", formatSelector format_id needs_merge,
    "-o", downloadOutputTemplate downloadsDir downloadId,
    "--newline", "--no-colors", "--js-runtimes", "node",
    "--extractor-args", "youtube:player_client=ios,android,web",
    "--force-ipv4", "--geo-bypass"] ++
  (match cookieFile with
    | some c => ["--cookies", c]
    | none => []) ++ [url]

/-- Helper: a list is an initial segment of itself extended on the right. -/
theorem charsHasPfx_self_append (p r : List Char) : charsHasPfx p (p ++ r) = true := by
  induction p with
  | nil => rfl
  | cons c cs ih => simp [charsHasPfx, ih]

/-- Helper: a string ends with any suffix appended to it. -/
theorem strEndsWith_append (x sfx : String) : strEndsWith (x ++ sfx) sfx = true := by
  unfold strEndsWith
  rw [String.data_append, List.reverse_append]
  exact charsHasPfx_self_append _ _

/-- C6: the extractor branch of /api/download passes the output template as
the downloads directory joined with the tracking identifier followed by an
underscore and the extension placeholder (so the template ends in the
placeholder suffix), and passes a format selector equal to the raw format
identifier when the merge flag is absent or false and to the identifier
extended with the best-audio fallback when the flag is true; in particular
the identifier 22 with merge becomes 22+bestaudio/best. -/
theorem c6_extractor_args (downloadsDir downloadId format_id : String)
    (cookieFile : Option String) (url : String) :
    (∀ needs_merge,
      (ytDlpDownloadArgs downloadsDir downloadId format_id needs_merge cookieFile url).take 4 =
        ["-f", formatSelector format_id needs_merge, "-o",
          pathJoin downloadsDir (downloadId ++ "_%(ext)s")]) ∧
    strEndsWith (downloadOutputTemplate downloadsDir downloadId) "_%(ext)s" = true ∧
    formatSelector format_id none = format_id ∧
    formatSelector format_id (some false) = format_id ∧
    formatSelector format_id (some true) = format_id ++ "+bestaudio/best" ∧
    formatSelector "22" (some true) = "22+bestaudio/best" := by
  refine ⟨fun needs_merge => rfl, ?_, rfl, rfl, rfl, by decide⟩
  have h : downloadOutputTemplate downloadsDir downloadId =
      (downloadsDir ++ "/" ++ downloadId) ++ "_%(ext)s" := by
    unfold downloadOutputTemplate pathJoin
    rw [← String.append_assoc]
  rw [h]
  exact strEndsWith_append _ _

/-- The two ways the /api/download handler can run a schema-valid request,
src/server.ts lines 296 to 411: the bypass HTTP flow with its derived
quality token, audio flag and extension, or spawning the extractor with the
assembled argument list. -/
inductive DownloadAction where
  | bypass (vQuality : String) (isAudio : Bool) (ext : String)
  | extractor (args : List String)
deriving DecidableEq

/-- The string after dropping its first n characters, embedding the
replace of the fixed leading prefix the source performs under its
startsWith guard. -/
def dropChars (s : String) (n : ℕ) : String := String.mk (s.data.drop n)

/-- The branch decision of the /api/download handler: a format identifier
with the cobalt_ head runs the bypass flow and never spawns the extractor;
every other identifier spawns the extractor with the assembled arguments. -/
def downloadAction (downloadsDir downloadId format_id : String)
    (needs_merge : Option Bool) (cookieFile : Option String) (url : String) :
    DownloadAction :=
  if strStartsWith format_id "cobalt_" then
    DownloadAction.bypass
      (if strStartsWith format_id "cobalt_video_" then dropChars format_id 13 else "max")
      (format_id == "cobalt_audio")
      (if format_id == "cobalt_audio" then "mp3" else "mp4")
  else
    DownloadAction.extractor
      (ytDlpDownloadArgs downloadsDir downloadId format_id needs_merge cookieFile url)

/-- C7: a schema-valid /api/download request whose format identifier starts
with cobalt_ never reaches the extractor spawn (the bypass flow runs
instead), and every other format identifier always reaches the extractor
spawn. -/
theorem c7_branch_selection (downloadsDir downloadId format_id : String)
    (needs_merge : Option Bool) (cookieFile : Option String) (url : String) :
    ((∃ args, downloadAction downloadsDir downloadId format_id needs_merge cookieFile url =
        DownloadAction.extractor args) ↔ strStartsWith format_id "cobalt_" = false) ∧
    ((∃ vq ia ex, downloadAction downloadsDir downloadId format_id needs_merge cookieFile url =
        DownloadAction.bypass vq ia ex) ↔ strStartsWith format_id "cobalt_" = true) := by
  by_cases h : strStartsWith format_id "cobalt_" = true
  · constructor
    · simp [downloadAction, h]
    · refine ⟨fun _ => h, fun _ => ?_⟩
      exact ⟨(if strStartsWith format_id "cobalt_video_" then dropChars format_id 13 else "max"),
        (format_id == "cobalt_audio"),
        (if format_id == "cobalt_audio" then "mp3" else "mp4"),
        by simp [downloadAction, h]⟩
  · constructor
    · simp [downloadAction, h]
    · simp [downloadAction, h]

/-- What can happen to one GET /api/progress/:downloadId connection: a
500 millisecond timer tick (carrying what the task-map lookup of the
identifier returns at that instant) or the client closing the connection,
src/server.ts lines 461 to 484. -/
inductive SseEvent where
  | tick (lookup : Option DownloadTask)
  | clientClose

/-- The observable state of one progress-stream connection: the event
frames written so far, whether the server has ended the response, and
whether the periodic timer is still armed. -/
structure SseConn where
  frames : List DownloadTask
  ended : Bool
  timerActive : Bool
deriving DecidableEq

/-- A fresh progress-stream connection: nothing written, response open,
timer armed. -/
def sseInit : SseConn := ⟨[], false, true⟩

/-- One step of the progress endpoint: a tick with no map entry writes
nothing; a tick with an entry writes it as one frame and, when its status
is Completed or Error, clears the timer and ends the response; a client
close only clears the timer. -/
def sseStep (c : SseConn) (e : SseEvent) : SseConn :=
  match e with
  | .clientClose => ⟨c.frames, c.ended, false⟩
  | .tick lookup =>
    if c.timerActive then
      match lookup with
      | none => c
      | some d =>
        if d.status == "Completed" || d.status == "Error" then
          ⟨c.frames ++ [d], true, false⟩
        else ⟨c.frames ++ [d], c.ended, c.timerActive⟩
    else c

/-- The connection state after a sequence of events, from a fresh
connection. -/
def sseRun (es : List SseEvent) : SseConn := es.foldl sseStep sseInit

/-- C9: a progress-stream connection whose identifier never appears in the
task map (every tick looks up nothing, and the client may close at any
point) never writes a frame and is never ended by the server, the client
close clearing only the timer; and a tick that observes an existing task in
the Completed or Error status writes that state as a final frame, stops the
timer and ends the response. -/
theorem c9_progress_stream :
    (∀ es : List SseEvent,
      (∀ e ∈ es, e = SseEvent.tick none ∨ e = SseEvent.clientClose) →
      (sseRun es).frames = [] ∧ (sseRun es).ended = false) ∧
    (∀ c : SseConn, sseStep c SseEvent.clientClose = ⟨c.frames, c.ended, false⟩) ∧
    (∀ (c : SseConn) (d : DownloadTask), c.timerActive = true →
      (d.status = "Completed" ∨ d.status = "Error") →
      sseStep c (SseEvent.tick (some d)) = ⟨c.frames ++ [d], true, false⟩) := by
  have hstep : ∀ (c : SseConn) (e : SseEvent),
      e = SseEvent.tick none ∨ e = SseEvent.clientClose →
      (sseStep c e).frames = c.frames ∧ (sseStep c e).ended = c.ended := by
    intro c e he
    rcases he with rfl | rfl
    · by_cases ht : c.timerActive <;> simp [sseStep, ht]
    · exact ⟨rfl, rfl⟩
  have aux : ∀ (es : List SseEvent) (c : SseConn),
      (∀ e ∈ es, e = SseEvent.tick none ∨ e = SseEvent.clientClose) →
      (es.foldl sseStep c).frames = c.frames ∧ (es.foldl sseStep c).ended = c.ended := by
    intro es
    induction es with
    | nil => exact fun c _ => ⟨rfl, rfl⟩
    | cons e rest ih =>
      intro c he
      rw [List.foldl_cons]
      have h1 := hstep c e (he e (List.mem_cons_self e rest))
      have h2 := ih (sseStep c e) (fun x hx => he x (List.mem_cons_of_mem e hx))
      exact ⟨h2.1.trans h1.1, h2.2.trans h1.2⟩
  refine ⟨fun es he => aux es sseInit he, fun c => rfl, fun c d ht hd => ?_⟩
  have hb : (d.status == "Completed" || d.status == "Error") = true := by
    rcases hd with h | h <;> simp [h]
  simp [sseStep, ht, hb]

/-- Creating or truncating a file: the entry for the name is replaced (or
appended) with the given contents, every other entry kept. -/
def dirSet : List (String × List ℕ) → String → List ℕ → List (String × List ℕ)
  | [], name, bytes => [(name, bytes)]
  | (k, v) :: rest, name, bytes =>
    if k == name then (name, bytes) :: rest else (k, v) :: dirSet rest name bytes

/-- The read GET /downloads/:filename performs through the static route of
src/server.ts line 42: the bytes of the named file, if present. -/
def serveDownloadFile (dir : List (String × List ℕ)) (name : String) : Option (List ℕ) :=
  (dir.find? (fun e => e.1 == name)).map (fun e => e.2)

/-- The state the bypass transfer loop threads: the downloads directory,
the task map entry and the received byte count. -/
structure BypassFsState where
  dir : List (String × List ℕ)
  task : DownloadTask
  received : ℕ

/-- One chunk of the bypass transfer loop, src/server.ts lines 358 to 368:
the received count grows by the chunk length, the task entry is rewritten
with the chunk formula when the advertised total is positive, and the chunk
is appended to the destination file. -/
def bypassChunkFs (fname : String) (total : ℕ) (st : BypassFsState) (chunk : List ℕ) :
    BypassFsState :=
  { dir := dirSet st.dir fname (((serveDownloadFile st.dir fname).getD []) ++ chunk)
    task := if 0 < total then chunkTask (st.received + chunk.length) total else st.task
    received := st.received + chunk.length }

/-- A bypass transfer that writes some chunks and then fails: the write
stream is opened (creating or truncating the destination file), the chunks
arrive in order, and then a thrown error reaches the single catch of the
branch, src/server.ts lines 379 to 382, which rewrites only the task map
entry; none models a falsy thrown message, replaced by the fixed fallback
text. -/
def bypassFailRun (dir0 : List (String × List ℕ)) (fname : String) (total : ℕ)
    (chunks : List (List ℕ)) (msg : Option String) : BypassFsState :=
  let st1 := chunks.foldl (bypassChunkFs fname total)
    { dir := dirSet dir0 fname []
      task := ⟨some 30, "Downloading from Bypass Server...", none, none⟩
      received := 0 }
  { st1 with task := ⟨some 0, "Error",
      some (msg.getD "Bypass server failed to process this video."), none⟩ }

/-- Helper: reading a file straight after writing it yields what was
written. -/
theorem serveDownloadFile_dirSet (d : List (String × List ℕ)) (n : String) (b : List ℕ) :
    serveDownloadFile (dirSet d n b) n = some b := by
  induction d with
  | nil => simp [dirSet, serveDownloadFile, List.find?]
  | cons kv rest ih =>
    obtain ⟨k, v⟩ := kv
    by_cases h : (k == n) = true
    · simp [dirSet, h, serveDownloadFile, List.find?]
    · simp only [dirSet, h, Bool.false_eq_true, if_false]
      simpa [serveDownloadFile, List.find?, h] using ih

/-- Helper: across the transfer loop the destination file accumulates
exactly the chunks written so far, in order. -/
theorem bypassLoop_serves (fname : String) (total : ℕ) :
    ∀ (chunks : List (List ℕ)) (st : BypassFsState) (acc : List ℕ),
      serveDownloadFile st.dir fname = some acc →
      serveDownloadFile ((chunks.foldl (bypassChunkFs fname total) st).dir) fname =
        some (acc ++ chunks.flatten) := by
  intro chunks
  induction chunks with
  | nil => intro st acc h; simpa using h
  | cons chunk rest ih =>
    intro st acc h
    rw [List.foldl_cons]
    have h1 : serveDownloadFile (bypassChunkFs fname total st chunk).dir fname =
        some (acc ++ chunk) := by
      simp [bypassChunkFs, h, serveDownloadFile_dirSet]
    have h2 := ih (bypassChunkFs fname total st chunk) (acc ++ chunk) h1
    rw [h2]
    simp [List.flatten_cons, List.append_assoc]

/-- C10: when the bypass branch fails after writing any chunks to the
destination file, the task entry is replaced with progress 0, the Error
status and the thrown (or fallback) message, while the partially written
file is neither deleted nor truncated: the static downloads route still
serves exactly the bytes already written. -/
theorem c10_partial_file_preserved (dir0 : List (String × List ℕ)) (fname : String)
    (total : ℕ) (chunks : List (List ℕ)) (msg : Option String) :
    (bypassFailRun dir0 fname total chunks msg).task =
      ⟨some 0, "Error", some (msg.getD "Bypass server failed to process this video."),
        none⟩ ∧
    serveDownloadFile (bypassFailRun dir0 fname total chunks msg).dir fname =
      some chunks.flatten := by
  constructor
  · rfl
  · have h0 : serveDownloadFile (dirSet dir0 fname ([] : List ℕ)) fname =
        some ([] : List ℕ) := serveDownloadFile_dirSet dir0 fname []
    have hrun := bypassLoop_serves fname total chunks
      ⟨dirSet dir0 fname [], ⟨some 30, "Downloading from Bypass Server...", none, none⟩, 0⟩
      [] h0
    simpa [bypassFailRun] using hrun
